import Mathlib

/-!
Verification of the Generic NER evaluation tool (TSV/BRAT).

Shallow embedding of `src/evaluation.py` and the relevant call in
`src/main.py`.  Annotated spans are rows of a TSV file; the tool
deduplicates them and computes per-document and micro-averaged
Precision / Recall / F1.

Modelling conventions:
* a pandas DataFrame of annotation rows is a `List Row` (all columns are
  read with `dtype=str`, `keep_default_na=False`, so every field is a
  plain string and never null);
* a pandas Series indexed by `filename` is a function
  `String → Option α`, where `none` means the document is absent from
  the index;
* float values of per-document metric series are `Option ℚ`, where
  `none` stands for pandas NaN.  Division of aligned series yields NaN
  when either side of the alignment is missing.  A present group-by
  count is always ≥ 1, and in the F1 formula the numerator `2*P*R` is 0
  whenever the denominator `P+R` is 0, so the only divisions by zero
  reachable in this program are of the form 0/0, which pandas maps to
  NaN; division by zero is therefore modelled as NaN (`none`);
* micro-averaged values are exact rationals (ℚ), standing for the
  Python floats; the guards in `calculate_metrics` keep them total.
-/

namespace NerEval

/-- One annotation row of a TSV file: columns `filename`, `label`,
`start_span`, `end_span`, `text` (all strings, `dtype=str`). -/
structure Row where
  filename : String
  label : String
  start_span : String
  end_span : String
  text : String
deriving DecidableEq, Repr

/-- Derived column `offset = start_span + " " + end_span`
(the `df["offset"]` column: start span, a space, end span). -/
def offset (r : Row) : String := r.start_span ++ " " ++ r.end_span

/-- Key used by `parse_tsv_file` for deduplication:
`subset=["filename", "label", "offset"]`. -/
def parseKey (r : Row) : String × String × String := (r.filename, r.label, offset r)

/-- Key used by `calculate_positives` for counting positives:
`subset=["filename", "offset"]`. -/
def pairKey (r : Row) : String × String := (r.filename, offset r)

/-- Key used by the true-positive merge:
`on=["filename", "offset", "label"]`. -/
def tripleKey (r : Row) : String × String × String := (r.filename, offset r, r.label)

/-- Helper for `dedupBy`: keeps the first row of each key group,
carrying the set of keys already seen. -/
def dedupByAux {α κ : Type} [DecidableEq κ] (k : α → κ) (seen : List κ) : List α → List α
  | [] => []
  | r :: rs =>
    if k r ∈ seen then dedupByAux k seen rs
    else r :: dedupByAux k (k r :: seen) rs

/-- pandas `DataFrame.drop_duplicates(subset=...)`: keep the first row of
each group of rows sharing the same key. -/
def dedupBy {α κ : Type} [DecidableEq κ] (k : α → κ) (l : List α) : List α :=
  dedupByAux k [] l

/-- `parse_tsv_file`: derive the `offset` column and drop duplicates on
`["filename", "label", "offset"]` (rows are the already-loaded TSV
rows; file I/O is outside the core). -/
def parse_tsv_file (rows : List Row) : List Row :=
  dedupBy parseKey rows

/-- `pred.drop_duplicates(subset=["filename", "offset"]).shape[0]`:
total predicted positives. -/
def Pred_Pos (pred : List Row) : ℕ :=
  (dedupBy pairKey pred).length

/-- `pred.drop_duplicates(subset=["filename", "offset"]).groupby("filename")["offset"].count()`:
predicted positives per clinical case, as a Series (absent documents
are not in the group-by index). -/
def Pred_Pos_per_cc (pred : List Row) (d : String) : Option ℕ :=
  let c := (dedupBy pairKey pred).countP (fun r => decide (r.filename = d))
  if c = 0 then none else some c

/-- `gs.drop_duplicates(subset=["filename", "offset"]).shape[0]`:
total gold-standard positives. -/
def GS_Pos (gs : List Row) : ℕ :=
  (dedupBy pairKey gs).length

/-- `gs.drop_duplicates(subset=["filename", "offset"]).groupby("filename")["offset"].count()`:
gold-standard positives per clinical case. -/
def GS_Pos_per_cc (gs : List Row) (d : String) : Option ℕ :=
  let c := (dedupBy pairKey gs).countP (fun r => decide (r.filename = d))
  if c = 0 then none else some c

/-- Number of rows of `pred` matching a gold row `g` on
`["filename", "offset", "label"]`.  In the right join
`pd.merge(pred, gs, how="right", on=[...])` each gold row produces one
joined row per matching predicted row (all of them fully non-null,
hence valid), or a single row with null predicted columns (invalid)
when no predicted row matches. -/
def matchCount (pred : List Row) (g : Row) : ℕ :=
  pred.countP (fun p => decide (tripleKey p = tripleKey g))

/-- `TP = df_sel[df_sel["is_valid"]].shape[0]`: total true positives,
the number of valid rows of the right join. -/
def TP (gs pred : List Row) : ℕ :=
  (gs.map (matchCount pred)).sum

/-- `TP_per_cc = df_sel[df_sel["is_valid"]].groupby("filename")["is_valid"].count()`
before `handle_missing_cases` runs: valid joined rows per clinical
case; a document with no valid row is absent from the index. -/
def TP_per_cc_raw (gs pred : List Row) (d : String) : Option ℕ :=
  let c := ((gs.filter (fun r => decide (r.filename = d))).map (matchCount pred)).sum
  if c = 0 then none else some c

/-- Does any row of `l` belong to document `d`? (membership of `d` in
`l.drop_duplicates(subset=["filename"])["filename"]`). -/
def docIn (l : List Row) (d : String) : Bool :=
  l.any (fun r => decide (r.filename = d))

/-- `cc_not_predicted` of `handle_missing_cases`: documents present in
the gold standard but absent from the predictions. -/
def cc_not_predicted (gs pred : List Row) (d : String) : Bool :=
  docIn gs d && !docIn pred d

/-- `TP_per_cc` as observed by `calculate_metrics`: the loop
`for cc in cc_not_predicted: TP_per_cc[cc] = 0` of
`handle_missing_cases` mutates the Series in place (visible to the
caller).  The subsequent `Pred_Pos_per_cc = Pred_Pos_per_cc.drop(cc_not_GS)`
only rebinds a local name and has no effect on the caller, so
`Pred_Pos_per_cc` is modelled unchanged. -/
def TP_per_cc (gs pred : List Row) (d : String) : Option ℕ :=
  if cc_not_predicted gs pred d then some 0 else TP_per_cc_raw gs pred d

/-- Aligned division of two count Series (pandas `Series / Series` on
integer counts).  The result is indexed by the union of the two
indices; a document missing from either side gets NaN.  A present
group-by count is never 0, so the `y = 0` branch (0/0 ↦ NaN in pandas)
is unreachable here. -/
def natSeriesDiv (f g : String → Option ℕ) (d : String) : Option (Option ℚ) :=
  match f d, g d with
  | none, none => none
  | some x, some y => some (if y = 0 then none else some ((x : ℚ) / (y : ℚ)))
  | some _, none => some none
  | none, some _ => some none

/-- NaN-propagating product of two float values. -/
def qMul : Option ℚ → Option ℚ → Option ℚ
  | some a, some b => some (a * b)
  | _, _ => none

/-- NaN-propagating sum of two float values. -/
def qAdd : Option ℚ → Option ℚ → Option ℚ
  | some a, some b => some (a + b)
  | _, _ => none

/-- NaN-propagating quotient of two float values.  In this program the
numerator is 0 whenever the denominator is 0 (`2*P*R` with `P+R = 0`
and `P, R ≥ 0`), and pandas maps 0/0 to NaN, so division by zero is
modelled as NaN. -/
def qDiv : Option ℚ → Option ℚ → Option ℚ
  | some a, some b => if b = 0 then none else some (a / b)
  | _, _ => none

/-- Aligned elementwise operation on two float Series: the result index
is the union of both indices and a value missing on one side behaves
as NaN. -/
def sAlign (op : Option ℚ → Option ℚ → Option ℚ) (f g : String → Option (Option ℚ))
    (d : String) : Option (Option ℚ) :=
  match f d, g d with
  | none, none => none
  | some x, some y => some (op x y)
  | some _, none => some none
  | none, some _ => some none

/-- Scalar multiple of a float Series (`2 * P_per_cc`): index unchanged,
NaN stays NaN. -/
def sScale (c : ℚ) (f : String → Option (Option ℚ)) (d : String) : Option (Option ℚ) :=
  (f d).map (fun x => x.map (fun q => c * q))

/-- `P_per_cc = TP_per_cc / Pred_Pos_per_cc`. -/
def P_per_cc (gs pred : List Row) : String → Option (Option ℚ) :=
  natSeriesDiv (TP_per_cc gs pred) (Pred_Pos_per_cc pred)

/-- `R_per_cc = TP_per_cc / GS_Pos_per_cc`. -/
def R_per_cc (gs pred : List Row) : String → Option (Option ℚ) :=
  natSeriesDiv (TP_per_cc gs pred) (GS_Pos_per_cc gs)

/-- `F1_per_cc = (2 * P_per_cc * R_per_cc) / (P_per_cc + R_per_cc)`. -/
def F1_per_cc (gs pred : List Row) : String → Option (Option ℚ) :=
  sAlign qDiv
    (sAlign qMul (sScale 2 (P_per_cc gs pred)) (R_per_cc gs pred))
    (sAlign qAdd (P_per_cc gs pred) (R_per_cc gs pred))

/-- `P = TP / Pred_Pos if Pred_Pos > 0 else 0`. -/
def micro_P (gs pred : List Row) : ℚ :=
  if 0 < Pred_Pos pred then (TP gs pred : ℚ) / (Pred_Pos pred : ℚ) else 0

/-- `R = TP / GS_Pos if GS_Pos > 0 else 0`. -/
def micro_R (gs pred : List Row) : ℚ :=
  if 0 < GS_Pos gs then (TP gs pred : ℚ) / (GS_Pos gs : ℚ) else 0

/-- `F1 = (2 * P * R) / (P + R) if (P + R) > 0 else 0`. -/
def micro_F1 (gs pred : List Row) : ℚ :=
  if 0 < micro_P gs pred + micro_R gs pred then
    2 * micro_P gs pred * micro_R gs pred / (micro_P gs pred + micro_R gs pred)
  else 0

/-- `calculate_metrics`: returns
`(P_per_cc, P, R_per_cc, R, F1_per_cc, F1)`. -/
def calculate_metrics (gs pred : List Row) :
    (String → Option (Option ℚ)) × ℚ × (String → Option (Option ℚ)) × ℚ ×
      (String → Option (Option ℚ)) × ℚ :=
  (P_per_cc gs pred, micro_P gs pred, R_per_cc gs pred, micro_R gs pred,
    F1_per_cc gs pred, micro_F1 gs pred)

/-- Number of parameters of `def parse_tsv_file(datapath: str)` in
`src/evaluation.py` (a single positional parameter, no defaults or
varargs). -/
def parse_tsv_file_numParams : ℕ := 1

/-- Number of positional arguments in the call
`parse_tsv_file(args.gold_standard, entities_to_evaluate)` of
`src/main.py`. -/
def main_parse_tsv_numArgs : ℕ := 2

/-- Python calling convention for a function with only plain positional
parameters: the call binds successfully iff the argument count equals
the parameter count, otherwise it raises `TypeError`. -/
def pythonCallBinds (numParams numArgs : ℕ) : Bool :=
  numArgs == numParams

/-- Test row: a DISEASE span in doc1. -/
def rowDis1 : Row := ⟨"doc1", "DISEASE", "0", "5", "melanoma"⟩

/-- Test row: a DISEASE span in doc2. -/
def rowDis2 : Row := ⟨"doc2", "DISEASE", "0", "5", "asthma"⟩

/-- Test row: label A on the span (doc1, 0 5). -/
def rowLabA : Row := ⟨"doc1", "A", "0", "5", "x"⟩

/-- Test row: label B on the same span (doc1, 0 5) as `rowLabA`. -/
def rowLabB : Row := ⟨"doc1", "B", "0", "5", "x"⟩

/-- Test row: a second DISEASE span in doc1, disjoint from `rowDis1`. -/
def rowDis3 : Row := ⟨"doc1", "DISEASE", "10", "15", "flu"⟩

theorem mem_of_mem_dedupByAux {α κ : Type} [DecidableEq κ] (k : α → κ) (l : List α) :
    ∀ (seen : List κ) (x : α), x ∈ dedupByAux k seen l → x ∈ l := by
  induction l with
  | nil => intro seen x h; simp [dedupByAux] at h
  | cons r rs ih =>
    intro seen x h
    by_cases hk : k r ∈ seen
    · rw [dedupByAux, if_pos hk] at h
      exact List.mem_cons_of_mem _ (ih seen x h)
    · rw [dedupByAux, if_neg hk] at h
      rcases List.mem_cons.mp h with h | h
      · exact h ▸ List.mem_cons_self _ _
      · exact List.mem_cons_of_mem _ (ih _ x h)

theorem mem_key_dedupByAux {α κ : Type} [DecidableEq κ] (k : α → κ) (l : List α) :
    ∀ (seen : List κ) (a : κ),
      a ∈ (dedupByAux k seen l).map k ↔ a ∈ l.map k ∧ a ∉ seen := by
  induction l with
  | nil => intro seen a; simp [dedupByAux]
  | cons r rs ih =>
    intro seen a
    by_cases hk : k r ∈ seen
    · rw [dedupByAux, if_pos hk, ih]
      simp only [List.map_cons, List.mem_cons]
      constructor
      · rintro ⟨h1, h2⟩; exact ⟨Or.inr h1, h2⟩
      · rintro ⟨h1 | h1, h2⟩
        · subst h1; exact absurd hk h2
        · exact ⟨h1, h2⟩
    · rw [dedupByAux, if_neg hk]
      simp only [List.map_cons, List.mem_cons, ih, List.mem_cons]
      constructor
      · rintro (rfl | ⟨h1, h2⟩)
        · exact ⟨Or.inl rfl, hk⟩
        · exact ⟨Or.inr h1, fun hs => h2 (Or.inr hs)⟩
      · rintro ⟨h1 | h1, h2⟩
        · exact Or.inl h1
        · by_cases har : a = k r
          · exact Or.inl har
          · exact Or.inr ⟨h1, fun hs => hs.elim har h2⟩

theorem nodup_key_dedupByAux {α κ : Type} [DecidableEq κ] (k : α → κ) (l : List α) :
    ∀ (seen : List κ), ((dedupByAux k seen l).map k).Nodup := by
  induction l with
  | nil => intro seen; simp [dedupByAux]
  | cons r rs ih =>
    intro seen
    by_cases hk : k r ∈ seen
    · rw [dedupByAux, if_pos hk]; exact ih seen
    · rw [dedupByAux, if_neg hk]
      simp only [List.map_cons, List.nodup_cons]
      refine ⟨fun hmem => ?_, ih _⟩
      exact ((mem_key_dedupByAux k rs _ _).mp hmem).2 (List.mem_cons_self _ _)

theorem dedupByAux_eq_self {α κ : Type} [DecidableEq κ] (k : α → κ) (l : List α) :
    ∀ (seen : List κ), (l.map k).Nodup → (∀ x ∈ l, k x ∉ seen) →
      dedupByAux k seen l = l := by
  induction l with
  | nil => intro seen _ _; rfl
  | cons r rs ih =>
    intro seen hnd hs
    have hk : k r ∉ seen := hs r (List.mem_cons_self _ _)
    rw [dedupByAux, if_neg hk]
    congr 1
    simp only [List.map_cons, List.nodup_cons] at hnd
    refine ih _ hnd.2 fun x hx hmem => ?_
    rcases List.mem_cons.mp hmem with hmem | hmem
    · exact hnd.1 (hmem ▸ List.mem_map_of_mem k hx)
    · exact hs x (List.mem_cons_of_mem _ hx) hmem

theorem dedupBy_eq_self {α κ : Type} [DecidableEq κ] (k : α → κ) (l : List α)
    (h : (l.map k).Nodup) : dedupBy k l = l :=
  dedupByAux_eq_self k l [] h (by simp)

theorem nodup_key_dedupBy {α κ : Type} [DecidableEq κ] (k : α → κ) (l : List α) :
    ((dedupBy k l).map k).Nodup :=
  nodup_key_dedupByAux k l []

theorem mem_key_dedupBy {α κ : Type} [DecidableEq κ] (k : α → κ) (l : List α) (a : κ) :
    a ∈ (dedupBy k l).map k ↔ a ∈ l.map k := by
  rw [dedupBy, mem_key_dedupByAux]
  simp

theorem dedupBy_idem {α κ : Type} [DecidableEq κ] (k : α → κ) (l : List α) :
    dedupBy k (dedupBy k l) = dedupBy k l :=
  dedupBy_eq_self k _ (nodup_key_dedupBy k l)

theorem count_key_dedupBy {α κ : Type} [DecidableEq κ] (k : α → κ) (l : List α) (a : κ) :
    ((dedupBy k l).map k).count a = if a ∈ l.map k then 1 else 0 := by
  by_cases h : a ∈ l.map k
  · rw [if_pos h]
    exact List.count_eq_one_of_mem (nodup_key_dedupBy k l)
      ((mem_key_dedupBy k l a).mpr h)
  · rw [if_neg h]
    exact List.count_eq_zero_of_not_mem fun hc => h ((mem_key_dedupBy k l a).mp hc)

theorem dedupBy_key_perm {α κ : Type} [DecidableEq κ] (k : α → κ) {l l' : List α}
    (h : l.Perm l') : ((dedupBy k l).map k).Perm ((dedupBy k l').map k) := by
  rw [List.perm_iff_count]
  intro a
  rw [count_key_dedupBy, count_key_dedupBy]
  by_cases hm : a ∈ l.map k
  · rw [if_pos hm, if_pos ((h.map k).mem_iff.mp hm)]
  · rw [if_neg hm, if_neg fun hc => hm ((h.map k).mem_iff.mpr hc)]

theorem countP_filename_dedupBy (l : List Row) (d : String) :
    (dedupBy pairKey l).countP (fun r => decide (r.filename = d)) =
      ((dedupBy pairKey l).map pairKey).countP (fun x => decide (x.1 = d)) := by
  rw [List.countP_map]
  rfl

theorem Pred_Pos_perm {pred pred' : List Row} (h : pred.Perm pred') :
    Pred_Pos pred = Pred_Pos pred' := by
  unfold Pred_Pos
  rw [← List.length_map (dedupBy pairKey pred) pairKey,
    ← List.length_map (dedupBy pairKey pred') pairKey]
  exact (dedupBy_key_perm pairKey h).length_eq

theorem GS_Pos_perm {gs gs' : List Row} (h : gs.Perm gs') :
    GS_Pos gs = GS_Pos gs' := by
  unfold GS_Pos
  rw [← List.length_map (dedupBy pairKey gs) pairKey,
    ← List.length_map (dedupBy pairKey gs') pairKey]
  exact (dedupBy_key_perm pairKey h).length_eq

theorem Pred_Pos_per_cc_perm {pred pred' : List Row} (h : pred.Perm pred') :
    Pred_Pos_per_cc pred = Pred_Pos_per_cc pred' := by
  funext d
  unfold Pred_Pos_per_cc
  rw [countP_filename_dedupBy, countP_filename_dedupBy,
    (dedupBy_key_perm pairKey h).countP_eq (fun x => decide (x.1 = d))]

theorem GS_Pos_per_cc_perm {gs gs' : List Row} (h : gs.Perm gs') :
    GS_Pos_per_cc gs = GS_Pos_per_cc gs' := by
  funext d
  unfold GS_Pos_per_cc
  rw [countP_filename_dedupBy, countP_filename_dedupBy,
    (dedupBy_key_perm pairKey h).countP_eq (fun x => decide (x.1 = d))]

theorem matchCount_perm {pred pred' : List Row} (h : pred.Perm pred') :
    matchCount pred = matchCount pred' := by
  funext g
  exact h.countP_eq _

theorem TP_perm {gs gs' pred pred' : List Row} (h1 : gs.Perm gs') (h2 : pred.Perm pred') :
    TP gs pred = TP gs' pred' := by
  unfold TP
  rw [matchCount_perm h2]
  exact (h1.map (matchCount pred')).sum_eq

theorem TP_per_cc_raw_perm {gs gs' pred pred' : List Row} (h1 : gs.Perm gs')
    (h2 : pred.Perm pred') : TP_per_cc_raw gs pred = TP_per_cc_raw gs' pred' := by
  funext d
  unfold TP_per_cc_raw
  rw [matchCount_perm h2,
    ((h1.filter (fun r => decide (r.filename = d))).map (matchCount pred')).sum_eq]

theorem docIn_perm {l l' : List Row} (h : l.Perm l') : docIn l = docIn l' := by
  funext d
  unfold docIn
  refine Bool.eq_iff_iff.mpr ?_
  simp only [List.any_eq_true]
  exact ⟨fun ⟨x, hx, hp⟩ => ⟨x, h.mem_iff.mp hx, hp⟩,
    fun ⟨x, hx, hp⟩ => ⟨x, h.mem_iff.mpr hx, hp⟩⟩

theorem TP_per_cc_perm {gs gs' pred pred' : List Row} (h1 : gs.Perm gs')
    (h2 : pred.Perm pred') : TP_per_cc gs pred = TP_per_cc gs' pred' := by
  funext d
  unfold TP_per_cc cc_not_predicted
  rw [docIn_perm h1, docIn_perm h2, TP_per_cc_raw_perm h1 h2]

theorem countP_key_eq_one_of_nodup {α κ : Type} [DecidableEq κ] (k : α → κ)
    {l : List α} (h : (l.map k).Nodup) {g : α} (hg : g ∈ l) :
    l.countP (fun p => decide (k p = k g)) = 1 := by
  induction l with
  | nil => cases hg
  | cons r rs ih =>
    simp only [List.map_cons, List.nodup_cons] at h
    rcases List.mem_cons.mp hg with rfl | hg
    · rw [List.countP_cons, List.countP_eq_zero.mpr, if_pos (by simp)]
      intro p hp
      simp only [decide_eq_true_eq]
      exact fun he => h.1 (he ▸ List.mem_map_of_mem k hp)
    · rw [List.countP_cons, ih h.2 hg, if_neg]
      simp only [decide_eq_true_eq]
      exact fun he => h.1 (he ▸ List.mem_map_of_mem k hg)

theorem triple_nodup_of_pair_nodup {l : List Row} (h : (l.map pairKey).Nodup) :
    (l.map tripleKey).Nodup := by
  have heq : l.map pairKey = (l.map tripleKey).map (fun x => (x.1, x.2.1)) := by
    rw [List.map_map]
    rfl
  rw [heq] at h
  exact h.of_map _

theorem TP_self_of_pair_nodup {gs : List Row} (h : (gs.map pairKey).Nodup) :
    TP gs gs = gs.length := by
  have htr := triple_nodup_of_pair_nodup h
  have hone : ∀ g ∈ gs, matchCount gs g = 1 := fun g hg =>
    countP_key_eq_one_of_nodup tripleKey htr hg
  unfold TP
  rw [List.map_congr_left hone]
  simp [List.map_const]

theorem docIn_iff (l : List Row) (d : String) :
    docIn l d = true ↔ ∃ r ∈ l, r.filename = d := by
  unfold docIn
  simp [List.any_eq_true]

theorem GS_Pos_per_cc_pos_of_docIn {gs : List Row} {d : String}
    (h : ∃ r ∈ gs, r.filename = d) :
    ∃ c, GS_Pos_per_cc gs d = some c ∧ 0 < c := by
  obtain ⟨r, hr, hrd⟩ := h
  have hk : pairKey r ∈ (dedupBy pairKey gs).map pairKey :=
    (mem_key_dedupBy pairKey gs _).mpr (List.mem_map_of_mem pairKey hr)
  obtain ⟨y, hy, hyk⟩ := List.mem_map.mp hk
  have hyd : y.filename = d := by
    have := congrArg Prod.fst hyk
    simpa [pairKey, hrd] using this
  have hpos : 0 < (dedupBy pairKey gs).countP (fun r => decide (r.filename = d)) := by
    rw [List.countP_pos_iff]
    exact ⟨y, hy, by simp [hyd]⟩
  refine ⟨_, ?_, hpos⟩
  unfold GS_Pos_per_cc
  simp only [if_neg hpos.ne']

/-- C1: the claim states that a document present in `predicted` but
absent from `gold` is excluded from `PredictedPositivesPerDoc`, so that
the per-document precision series has no entry for it.  The code does
not do this: the `Pred_Pos_per_cc.drop` in `handle_missing_cases`
rebinds a local variable only, so `doc2` (predicted, not in gold) keeps
its entry `1` in `Pred_Pos_per_cc` and the per-document precision
series has an entry for `doc2` (with value NaN from the alignment with
the absent true-positive count), contrary to the claim. -/
theorem c1_pred_only_doc_not_excluded :
    Pred_Pos_per_cc [rowDis1, rowDis2] "doc2" = some 1 ∧
      P_per_cc [rowDis1] [rowDis1, rowDis2] "doc2" = some none := by
  decide

/-- C2: the claim states that the `--entities` filter restricts both
record sets by label and the run completes.  In the code,
`parse_tsv_file` takes a single parameter `datapath` while `main`
calls it as `parse_tsv_file(args.gold_standard, entities_to_evaluate)`
with two positional arguments, so the call raises `TypeError`; and the
loader performs no label filtering at all (rows with any label, here
both `A` and `B`, are kept unconditionally). -/
theorem c2_entity_filter_not_implemented :
    pythonCallBinds parse_tsv_file_numParams main_parse_tsv_numArgs = false ∧
      parse_tsv_file [rowLabA, rowLabB] = [rowLabA, rowLabB] := by
  decide

/-- C3 counterexample: the claim as stated fails.  The record set
`[rowLabA, rowLabB]` is deduplicated (it is a fixed point of
`parse_tsv_file`, whose dedup key includes the label) and has
`GS_Pos > 0`, but scoring it against itself does not give micro
Precision = Recall = F1 = 1: the two rows share the `(filename,
offset)` pair, so `Pred_Pos = GS_Pos = 1` while the label-aware join
counts both rows as true positives, giving `TP = 2` and micro
Precision 2. -/
theorem c3_self_match_counterexample :
    parse_tsv_file [rowLabA, rowLabB] = [rowLabA, rowLabB] ∧
      0 < GS_Pos [rowLabA, rowLabB] ∧
      ¬(micro_P [rowLabA, rowLabB] [rowLabA, rowLabB] = 1 ∧
        micro_R [rowLabA, rowLabB] [rowLabA, rowLabB] = 1 ∧
        micro_F1 [rowLabA, rowLabB] [rowLabA, rowLabB] = 1) := by
  refine ⟨by decide, by decide, fun hc => ?_⟩
  have hTP : TP [rowLabA, rowLabB] [rowLabA, rowLabB] = 2 := by decide
  have hPP : Pred_Pos [rowLabA, rowLabB] = 1 := by decide
  have h2 : micro_P [rowLabA, rowLabB] [rowLabA, rowLabB] = 2 := by
    rw [micro_P, hTP, hPP]
    norm_num
  exact absurd (h2.symm.trans hc.1) (by norm_num)

/-- C3 amended: for every record set `gs` in which no two rows share
the same `(filename, offset)` pair (hence in particular deduplicated)
and with `GS_Pos gs > 0`, `calculate_metrics gs gs` yields micro
Precision = Recall = F1 = 1. -/
theorem c3_self_match_identity (gs : List Row) (hnd : (gs.map pairKey).Nodup)
    (hpos : 0 < GS_Pos gs) :
    micro_P gs gs = 1 ∧ micro_R gs gs = 1 ∧ micro_F1 gs gs = 1 := by
  have hded : dedupBy pairKey gs = gs := dedupBy_eq_self pairKey gs hnd
  have hPP : Pred_Pos gs = gs.length := by rw [Pred_Pos, hded]
  have hGS : GS_Pos gs = gs.length := by rw [GS_Pos, hded]
  have hTP : TP gs gs = gs.length := TP_self_of_pair_nodup hnd
  have hlen : 0 < gs.length := by rw [← hGS]; exact hpos
  have hne : ((gs.length : ℚ)) ≠ 0 := Nat.cast_ne_zero.mpr hlen.ne'
  have hP : micro_P gs gs = 1 := by
    rw [micro_P, hTP, hPP, if_pos hlen]
    exact div_self hne
  have hR : micro_R gs gs = 1 := by
    rw [micro_R, hTP, hGS, if_pos hlen]
    exact div_self hne
  have hF1 : micro_F1 gs gs = 1 := by
    rw [micro_F1, hP, hR]
    norm_num
  exact ⟨hP, hR, hF1⟩

/-- C3 witness: the amended theorem applied to the one-row record set
`[rowDis1]`. -/
theorem c3_self_match_identity_witness :
    (([rowDis1] : List Row).map pairKey).Nodup ∧ 0 < GS_Pos [rowDis1] ∧
      micro_P [rowDis1] [rowDis1] = 1 ∧ micro_R [rowDis1] [rowDis1] = 1 ∧
      micro_F1 [rowDis1] [rowDis1] = 1 := by
  refine ⟨by decide, by decide, ?_, ?_, ?_⟩
  · exact (c3_self_match_identity [rowDis1] (by decide) (by decide)).1
  · exact (c3_self_match_identity [rowDis1] (by decide) (by decide)).2.1
  · exact (c3_self_match_identity [rowDis1] (by decide) (by decide)).2.2

/-- C4: a document that appears in `gold` but in no row of `predicted`
gets, after the reconciliation of `handle_missing_cases`, the entry 0
in the true-positives-per-document Series. -/
theorem c4_unpredicted_doc_gets_zero (gs pred : List Row) (d : String)
    (hg : ∃ g ∈ gs, g.filename = d) (hp : ∀ p ∈ pred, p.filename ≠ d) :
    TP_per_cc gs pred d = some 0 := by
  have hg' : docIn gs d = true := (docIn_iff gs d).mpr hg
  have hp' : docIn pred d = false := by
    rw [docIn, List.any_eq_false]
    intro p hpm
    simpa using hp p hpm
  unfold TP_per_cc cc_not_predicted
  rw [hg', hp']
  rfl

/-- C4 witness: gold covers doc1 and doc2, predictions only doc1, so
doc2 gets the zero entry. -/
theorem c4_unpredicted_doc_gets_zero_witness :
    TP_per_cc [rowDis1, rowDis2] [rowDis1] "doc2" = some 0 :=
  c4_unpredicted_doc_gets_zero [rowDis1, rowDis2] [rowDis1] "doc2"
    ⟨rowDis2, by decide, rfl⟩ (by decide)

/-- C5: the micro-averaged metrics follow the guarded formulas of
`calculate_metrics` — each value is the quotient of its counts when
the denominator is positive and 0 otherwise — so no division by zero
occurs at the micro level (each quotient is certified by the
corresponding product identity). -/
theorem c5_micro_formulas (gs pred : List Row) :
    micro_P gs pred =
      (if 0 < Pred_Pos pred then (TP gs pred : ℚ) / (Pred_Pos pred : ℚ) else 0) ∧
    micro_R gs pred =
      (if 0 < GS_Pos gs then (TP gs pred : ℚ) / (GS_Pos gs : ℚ) else 0) ∧
    micro_F1 gs pred =
      (if 0 < micro_P gs pred + micro_R gs pred then
        2 * micro_P gs pred * micro_R gs pred / (micro_P gs pred + micro_R gs pred)
      else 0) ∧
    (micro_P gs pred * (Pred_Pos pred : ℚ) = (TP gs pred : ℚ) ∨
      (Pred_Pos pred = 0 ∧ micro_P gs pred = 0)) ∧
    (micro_R gs pred * (GS_Pos gs : ℚ) = (TP gs pred : ℚ) ∨
      (GS_Pos gs = 0 ∧ micro_R gs pred = 0)) ∧
    (micro_F1 gs pred * (micro_P gs pred + micro_R gs pred) =
        2 * micro_P gs pred * micro_R gs pred ∨
      (micro_P gs pred + micro_R gs pred = 0 ∧ micro_F1 gs pred = 0)) := by
  refine ⟨rfl, rfl, rfl, ?_, ?_, ?_⟩
  · by_cases h : 0 < Pred_Pos pred
    · left
      rw [micro_P, if_pos h]
      exact div_mul_cancel₀ _ (Nat.cast_ne_zero.mpr h.ne')
    · right
      exact ⟨Nat.eq_zero_of_not_pos h, by rw [micro_P, if_neg h]⟩
  · by_cases h : 0 < GS_Pos gs
    · left
      rw [micro_R, if_pos h]
      exact div_mul_cancel₀ _ (Nat.cast_ne_zero.mpr h.ne')
    · right
      exact ⟨Nat.eq_zero_of_not_pos h, by rw [micro_R, if_neg h]⟩
  · by_cases h : 0 < micro_P gs pred + micro_R gs pred
    · left
      rw [micro_F1, if_pos h]
      exact div_mul_cancel₀ _ h.ne'
    · right
      have h0 : micro_P gs pred + micro_R gs pred = 0 := by
        have hP : 0 ≤ micro_P gs pred := by
          rw [micro_P]; split
          · positivity
          · exact le_refl 0
        have hR : 0 ≤ micro_R gs pred := by
          rw [micro_R]; split
          · positivity
          · exact le_refl 0
        have := not_lt.mp h
        linarith
      exact ⟨h0, by rw [micro_F1, if_neg h]⟩

/-- C6: per-document metrics carry no zero-denominator guard.  A
present per-document positives count is never the integer 0 (group-by
counts are ≥ 1), so the zero-denominator case at the per-document
level is a missing denominator: when the true-positive Series has an
entry for a document but the predicted-positives Series does not (a
gold document with no predictions), the per-document Precision is NaN,
not 0, and the NaN propagates into the per-document F1. -/
theorem c6_per_doc_unguarded (gs pred : List Row) (d : String) :
    Pred_Pos_per_cc pred d ≠ some 0 ∧
    GS_Pos_per_cc gs d ≠ some 0 ∧
    ((TP_per_cc gs pred d).isSome = true → Pred_Pos_per_cc pred d = none →
      P_per_cc gs pred d = some none) ∧
    (P_per_cc gs pred d = some none → F1_per_cc gs pred d = some none) := by
  refine ⟨?_, ?_, ?_, ?_⟩
  · unfold Pred_Pos_per_cc
    by_cases h : (dedupBy pairKey pred).countP (fun r => decide (r.filename = d)) = 0
    · simp [h]
    · simp [h]
  · unfold GS_Pos_per_cc
    by_cases h : (dedupBy pairKey gs).countP (fun r => decide (r.filename = d)) = 0
    · simp [h]
    · simp [h]
  · intro h1 h2
    obtain ⟨x, hx⟩ := Option.isSome_iff_exists.mp h1
    unfold P_per_cc natSeriesDiv
    rw [hx, h2]
  · intro hP
    unfold F1_per_cc sAlign sScale
    rw [hP]
    cases hR : R_per_cc gs pred d <;> simp [qMul, qAdd, qDiv]

/-- C6 witness: gold covers doc1 and doc2, predictions only doc1; for
doc2 the per-document Precision and F1 are NaN. -/
theorem c6_per_doc_unguarded_witness :
    P_per_cc [rowDis1, rowDis2] [rowDis1] "doc2" = some none ∧
      F1_per_cc [rowDis1, rowDis2] [rowDis1] "doc2" = some none := by
  have h3 := (c6_per_doc_unguarded [rowDis1, rowDis2] [rowDis1] "doc2").2.2.1
    (by decide) (by decide)
  exact ⟨h3, (c6_per_doc_unguarded [rowDis1, rowDis2] [rowDis1] "doc2").2.2.2 h3⟩

/-- C7: `calculate_metrics` is insensitive to the order of the rows of
either input: permuting `gs` or `pred` leaves the whole result — the
micro averages and the per-document Series, which are modelled as
mappings from document id — unchanged. -/
theorem c7_order_insensitive (gs gs' pred pred' : List Row)
    (h1 : gs.Perm gs') (h2 : pred.Perm pred') :
    calculate_metrics gs pred = calculate_metrics gs' pred' := by
  have hTP := TP_perm h1 h2
  have hTPcc := TP_per_cc_perm h1 h2
  have hPPcc := Pred_Pos_per_cc_perm h2
  have hGScc := GS_Pos_per_cc_perm h1
  have hPP := Pred_Pos_perm h2
  have hGS := GS_Pos_perm h1
  unfold calculate_metrics F1_per_cc P_per_cc R_per_cc micro_F1 micro_P micro_R
  rw [hTP, hTPcc, hPPcc, hGScc, hPP, hGS]

/-- C7 witness: swapping the two gold rows changes nothing. -/
theorem c7_order_insensitive_witness :
    ([rowDis1, rowDis3] : List Row).Perm [rowDis3, rowDis1] ∧
      calculate_metrics [rowDis1, rowDis3] [rowDis1] =
        calculate_metrics [rowDis3, rowDis1] [rowDis1] :=
  ⟨List.Perm.swap rowDis3 rowDis1 [],
    c7_order_insensitive _ _ _ _ (List.Perm.swap rowDis3 rowDis1 [])
      (List.Perm.refl _)⟩

/-- C8: if no predicted row matches any gold row on
`(filename, offset, label)`, then `TP = 0` and all three
micro-averaged metrics are 0. -/
theorem c8_no_overlap (gs pred : List Row)
    (h : ∀ p ∈ pred, ∀ g ∈ gs, tripleKey p ≠ tripleKey g) :
    TP gs pred = 0 ∧ micro_P gs pred = 0 ∧ micro_R gs pred = 0 ∧
      micro_F1 gs pred = 0 := by
  have hTP : TP gs pred = 0 := by
    unfold TP
    refine List.sum_eq_zero fun x hx => ?_
    obtain ⟨g, hg, rfl⟩ := List.mem_map.mp hx
    unfold matchCount
    rw [List.countP_eq_zero]
    intro p hp
    simp only [decide_eq_true_eq]
    exact h p hp g hg
  have hP : micro_P gs pred = 0 := by
    rw [micro_P, hTP]
    split <;> simp
  have hR : micro_R gs pred = 0 := by
    rw [micro_R, hTP]
    split <;> simp
  have hF1 : micro_F1 gs pred = 0 := by
    rw [micro_F1, hP, hR]
    norm_num
  exact ⟨hTP, hP, hR, hF1⟩

/-- C8 witness: one gold row and one predicted row on different spans. -/
theorem c8_no_overlap_witness :
    (∀ p ∈ ([rowDis3] : List Row), ∀ g ∈ ([rowDis1] : List Row),
      tripleKey p ≠ tripleKey g) ∧
    TP [rowDis1] [rowDis3] = 0 ∧ micro_P [rowDis1] [rowDis3] = 0 ∧
      micro_R [rowDis1] [rowDis3] = 0 ∧ micro_F1 [rowDis1] [rowDis3] = 0 :=
  ⟨by decide, c8_no_overlap [rowDis1] [rowDis3] (by decide)⟩

/-- C9: normalization is idempotent: running `parse_tsv_file` (span-key
derivation plus deduplication) on its own output returns the output
unchanged. -/
theorem c9_normalization_idempotent (rows : List Row) :
    parse_tsv_file (parse_tsv_file rows) = parse_tsv_file rows :=
  dedupBy_idem parseKey rows

/-- C10: a document that appears in both `gold` and `predicted` but has
no matching `(filename, offset, label)` triple is absent from the
true-positives-per-document Series after reconciliation (neither
present nor set to 0), so its per-document Recall is NaN rather
than 0. -/
theorem c10_shared_doc_no_match (gs pred : List Row) (d : String)
    (hg : ∃ g ∈ gs, g.filename = d) (hp : ∃ p ∈ pred, p.filename = d)
    (hnm : ∀ g ∈ gs, g.filename = d → matchCount pred g = 0) :
    TP_per_cc gs pred d = none ∧ R_per_cc gs pred d = some none := by
  have hcc : cc_not_predicted gs pred d = false := by
    unfold cc_not_predicted
    rw [(docIn_iff pred d).mpr hp]
    simp
  have hraw : TP_per_cc_raw gs pred d = none := by
    unfold TP_per_cc_raw
    have hz : ((gs.filter (fun r => decide (r.filename = d))).map
        (matchCount pred)).sum = 0 := by
      refine List.sum_eq_zero fun x hx => ?_
      obtain ⟨g, hgf, rfl⟩ := List.mem_map.mp hx
      exact hnm g (List.mem_of_mem_filter hgf)
        (by simpa using List.of_mem_filter hgf)
    simp [hz]
  have hTPd : TP_per_cc gs pred d = none := by
    unfold TP_per_cc
    simp [hcc, hraw]
  obtain ⟨c, hc, _⟩ := GS_Pos_per_cc_pos_of_docIn hg
  refine ⟨hTPd, ?_⟩
  unfold R_per_cc natSeriesDiv
  rw [hTPd, hc]

/-- C10 witness: the same span in doc1 labelled A in gold and B in
predicted: doc1 is in both inputs, nothing matches, and the
per-document Recall for doc1 is NaN. -/
theorem c10_shared_doc_no_match_witness :
    TP_per_cc [rowLabA] [rowLabB] "doc1" = none ∧
      R_per_cc [rowLabA] [rowLabB] "doc1" = some none :=
  c10_shared_doc_no_match [rowLabA] [rowLabB] "doc1"
    ⟨rowLabA, by decide, rfl⟩ ⟨rowLabB, by decide, rfl⟩ (by decide)

end NerEval
